import Mathlib

/-!
Verification development for the homenet-peer VPN fabric (package `vpn`).

The Go sources are shallowly embedded: machine integers are `Nat` with
explicit `% 2 ^ 32` (uint32) and `% 256` (uint8) where overflow can occur,
Go `error` results are `Option VpnErr` (`none` = nil error), and the
effectful link/transport/device operations are threaded explicitly through
oracle environments (`LinkEnv`, `TransportEnv`) plus an action trace.
-/

namespace HomenetPeer

/-- Error kinds of the `vpn` package.  `wrongMask` is `ErrWrongMask`
("Invalid mask"), `addressSpaceExhausted` is the `fmt.Errorf("Not implemented
yet: we can only modify the last octet at the moment")` failure that the spec
names AddressSpaceExhausted, `peerNotFound` is `ErrPeerNotFound` wrapped with
the integer alias, `linkConfig` is a failure reported by one of the
`tenus.Linker` calls (`SetLinkMacAddress` / `SetLinkIp` / `SetLinkUp`), and
`sendFailed` is a delivery failure of the abstract transport capability. -/
inductive VpnErr where
  | wrongMask
  | addressSpaceExhausted
  | peerNotFound (peerIntAlias : Nat)
  | linkConfig
  | sendFailed
deriving DecidableEq, Repr

/-- Go functions return `error`; `none` models a nil error (success). -/
abbrev GoErr := Option VpnErr

/-- The mutable state of a `vpn` value that the reconciler touches:
`oldPeerIntAlias` (uint32, modelled as `Nat`, always kept `< 2 ^ 32` by the
operations), and the stored subnet: the byte list of `vpn.subnet.IP`
together with the numbers returned by `vpn.subnet.Mask.Size()`
(`maskOnes`, `maskBits`). -/
structure VpnState where
  oldPeerIntAlias : Nat
  subnetIP : List Nat
  maskOnes : Nat
  maskBits : Nat
deriving DecidableEq, Repr

/-- Outcome oracle for the `tenus.Linker` operations consumed by the
reconciler (spec section 6 device capability): whether
`SetLinkMacAddress` succeeds on a given MAC, whether `SetLinkIp` succeeds on
a given IP, and whether `SetLinkUp` succeeds. -/
structure LinkEnv where
  setLinkMacAddressOk : List Nat → Bool
  setLinkIpOk : List Nat → Bool
  setLinkUpOk : Bool

/-- Trace entries recording which link operations were performed. -/
inductive LinkOp where
  | setMacAddress (mac : List Nat)
  | setIp (ip : List Nat)
  | setUp
deriving DecidableEq, Repr

/-- Modelled from the spec: `GenerateHomenetMAC` lives in a file of this
repository that is not among the provided sources.  Per the spec, a
HomenetAddress is a 6-byte link address carrying a fixed tag that marks it
as a homenet address plus the encoded (32-bit) alias, distinguishable from
the broadcast address.  We model the tag as two fixed bytes (first byte not
255, so no homenet address equals the all-255 broadcast address) followed by
the four big-endian bytes of the alias. -/
def homenetTag : List Nat := [2, 72]

/-- Modelled from the spec: the alias-to-address encoding (see
`homenetTag`). -/
def GenerateHomenetMAC (peerIntAlias : Nat) : List Nat :=
  homenetTag ++
    [peerIntAlias / 2 ^ 24 % 256, peerIntAlias / 2 ^ 16 % 256,
     peerIntAlias / 2 ^ 8 % 256, peerIntAlias % 256]

namespace macSlice

/-- Modelled from the spec: `macSlice.IsHomenet` checks the fixed tag. -/
def IsHomenet (mac : List Nat) : Bool :=
  mac.take 2 == homenetTag

/-- Modelled from the spec: `macSlice.IsBroadcast` recognises
ff:ff:ff:ff:ff:ff. -/
def IsBroadcast (mac : List Nat) : Bool :=
  mac == List.replicate 6 255

/-- Modelled from the spec: `macSlice.GetPeerIntAlias` decodes the alias
back out of the four non-tag bytes. -/
def GetPeerIntAlias (mac : List Nat) : Nat :=
  mac.getD 2 0 * 2 ^ 24 + mac.getD 3 0 * 2 ^ 16 + mac.getD 4 0 * 2 ^ 8 +
    mac.getD 5 0

end macSlice

/-- `vpn.updateMAC`: computes the synthetic MAC for the alias and applies it
with `SetLinkMacAddress`, wrapping a failure.  Returns the Go error and the
trace of link operations performed. -/
def updateMAC (env : LinkEnv) (peerIntAlias : Nat) : GoErr × List LinkOp :=
  let newMAC := GenerateHomenetMAC peerIntAlias
  if env.setLinkMacAddressOk newMAC then (none, [.setMacAddress newMAC])
  else (some .linkConfig, [.setMacAddress newMAC])

/-- The value of the Go expression `1 << uint32(maskBits-maskOnes)` at type
uint32: `2 ^ hostBits` truncated to 32 bits (a shift count of 32 or more
yields 0 on a uint32 in Go, which coincides with `% 2 ^ 32`). -/
def aliasCapacity (hostBits : Nat) : Nat :=
  2 ^ hostBits % 2 ^ 32

/-- The value of `myAddress` (= the slice `vpn.subnet.IP`) after the
in-place statement `myAddress[len(myAddress)-1] += uint8(peerIntAlias)`:
the last octet becomes its old value plus the truncated alias, in uint8
arithmetic. -/
def mutatedIP (st : VpnState) (peerIntAlias : Nat) : List Nat :=
  st.subnetIP.dropLast ++
    [(st.subnetIP.getLastD 0 + peerIntAlias % 256) % 256]

/-- `vpn.updateIPAddress`: checks the alias against the subnet host
capacity (`ErrWrongMask`), then checks, in uint32 arithmetic, that the base
address's last octet plus the alias does not exceed 255 (the
AddressSpaceExhausted failure), then adds `uint8(peerIntAlias)` into the
last octet of the stored `vpn.subnet.IP` IN PLACE (`myAddress` aliases the
slice `vpn.subnet.IP`, so the stored subnet base is mutated before the
address is applied, and it is never restored — see `mutatedIP`), and
finally applies the mutated address with `SetLinkIp`.  Returns the Go
error, the state after the call (with the mutated subnet), and the
trace. -/
def updateIPAddress (env : LinkEnv) (st : VpnState) (peerIntAlias : Nat) :
    GoErr × VpnState × List LinkOp :=
  if aliasCapacity (st.maskBits - st.maskOnes) ≤ peerIntAlias then
    (some .wrongMask, st, [])
  else if 255 < (st.subnetIP.getLastD 0 + peerIntAlias) % 2 ^ 32 then
    (some .addressSpaceExhausted, st, [])
  else if env.setLinkIpOk (mutatedIP st peerIntAlias) then
    (none, { st with subnetIP := mutatedIP st peerIntAlias },
     [.setIp (mutatedIP st peerIntAlias)])
  else
    (some .linkConfig, { st with subnetIP := mutatedIP st peerIntAlias },
     [.setIp (mutatedIP st peerIntAlias)])

/-- `vpn.updatePeerIntAlias`: runs the three steps `updateMAC`,
`updateIPAddress`, `SetLinkUp`, aborting on the first failure, and only
after all three succeed stores the new alias into `vpn.oldPeerIntAlias`. -/
def updatePeerIntAlias (env : LinkEnv) (st : VpnState)
    (newPeerIntAlias : Nat) : GoErr × VpnState × List LinkOp :=
  match updateMAC env newPeerIntAlias with
  | (some e, tr) => (some e, st, tr)
  | (none, tr1) =>
    match updateIPAddress env st newPeerIntAlias with
    | (some e, st', tr2) => (some e, st', tr1 ++ tr2)
    | (none, st', tr2) =>
      if env.setLinkUpOk then
        (none, { st' with oldPeerIntAlias := newPeerIntAlias },
         tr1 ++ tr2 ++ [.setUp])
      else (some .linkConfig, st', tr1 ++ tr2 ++ [.setUp])

/-- `vpn.updatePeers`: reads the current own alias from the control plane
(passed here as `reportedAlias`) and runs `updatePeerIntAlias` only when it
differs from `vpn.oldPeerIntAlias`. -/
def updatePeers (env : LinkEnv) (st : VpnState) (reportedAlias : Nat) :
    GoErr × VpnState × List LinkOp :=
  if st.oldPeerIntAlias ≠ reportedAlias then
    updatePeerIntAlias env st reportedAlias
  else (none, st, [])

/-- The `vpn` state right after `New(subnet, ...)`: the struct literal sets
only `subnet` and the logger, so `oldPeerIntAlias` keeps its uint32 zero
value 0 (there is no distinct unset value). -/
def initialState (subnetIP : List Nat) (maskOnes maskBits : Nat) : VpnState :=
  { oldPeerIntAlias := 0, subnetIP := subnetIP, maskOnes := maskOnes,
    maskBits := maskBits }

/-- A peer record as read from the control plane (`models.PeerT`), reduced
to the accessors the fabric uses: `GetID` and `GetIntAlias`. -/
structure PeerT where
  id : String
  intAlias : Nat
deriving DecidableEq, Repr

/-- A snapshot of the live control-plane view (`network.Network`) as read
through `GetPeerID` (own peer id) and `GetPeers` (current peer records). -/
structure NetworkView where
  peerID : String
  peers : List PeerT
deriving DecidableEq, Repr

/-- Modelled from the spec: `network.Network.GetPeerByIntAlias` belongs to
the `network` package, which is not among the provided sources; per the
spec it is the directory lookup `getPeerByAlias(alias) → PeerRecord|absent`
over the current peer set. -/
def GetPeerByIntAlias (net : NetworkView) (peerIntAlias : Nat) :
    Option PeerT :=
  net.peers.find? (fun p => p.intAlias == peerIntAlias)

/-- Outcome oracle for the abstract transport capability (spec sections 4.3,
6 and 9: the observed `SendToPeer` body only dumps the frame and returns
nil; delivery is to be treated as an abstract capability that may fail). -/
structure TransportEnv where
  sendOk : PeerT → List Nat → Bool

/-- Observable actions of the frame pump and router. -/
inductive Action where
  | logReadError
  | sleepBackoff
  | deliverAttempt (peerID : String)
  | logError (e : VpnErr)
  | drop
  | crash
deriving DecidableEq, Repr

/-- Modelled from the spec: the helper `logIfError` is repository code not
among the provided sources; per the spec a delivery failure is logged and
the frame dropped, with no retry. -/
def logIfError : GoErr → List Action
  | none => []
  | some e => [.logError e]

/-- `vpn.SendToPeer`: one delivery attempt to one peer.  The attempt is
always recorded; the result comes from the transport oracle. -/
def SendToPeer (tenv : TransportEnv) (peer : PeerT) (frame : List Nat) :
    GoErr × List Action :=
  ((if tenv.sendOk peer frame then none else some .sendFailed),
   [.deliverAttempt peer.id])

/-- `vpn.SendToPeerByIntAlias`: resolves the alias in the directory; when
absent it returns `ErrPeerNotFound` wrapped with the alias, without any
delivery attempt; otherwise it delegates to `SendToPeer`. -/
def SendToPeerByIntAlias (tenv : TransportEnv) (net : NetworkView)
    (peerIntAlias : Nat) (frame : List Nat) : GoErr × List Action :=
  match GetPeerByIntAlias net peerIntAlias with
  | none => (some (.peerNotFound peerIntAlias), [])
  | some peer => SendToPeer tenv peer frame

/-- The loop of `vpn.ForeachPeer` over the directory's peer list: a peer
whose id equals the own peer id is skipped; otherwise `fn` runs, its output
is collected, and a `false` continuation flag breaks the loop. -/
def foreachPeerGo (myPeerID : String) (fn : PeerT → List Action × Bool) :
    List PeerT → List Action
  | [] => []
  | peer :: rest =>
    if peer.id == myPeerID then foreachPeerGo myPeerID fn rest
    else
      let out := fn peer
      if out.2 then out.1 ++ foreachPeerGo myPeerID fn rest
      else out.1

/-- `vpn.ForeachPeer`: reads the own peer id and the peer list from the
current control-plane view and iterates (see `foreachPeerGo`). -/
def ForeachPeer (net : NetworkView) (fn : PeerT → List Action × Bool) :
    List Action :=
  foreachPeerGo net.peerID fn net.peers

/-- The callback `tapReadHandler` hands to `ForeachPeer` for a broadcast
frame: attempt delivery, log a failure via `logIfError`, and return `true`
so the iteration always continues to the next peer. -/
def broadcastFn (tenv : TransportEnv) (frame : List Nat) (peer : PeerT) :
    List Action × Bool :=
  let r := SendToPeer tenv peer frame
  (r.2 ++ logIfError r.1, true)

/-- The broadcast fan-out of `tapReadHandler`: iterate all known peers
excluding self with `broadcastFn`. -/
def broadcastActions (tenv : TransportEnv) (net : NetworkView)
    (frame : List Nat) : List Action :=
  ForeachPeer net (broadcastFn tenv frame)

/-- One message from the read goroutine of `tapReadHandler`: the content of
the backing buffer `framebuf` (whose capacity stays `TAPFrameMaxSize`
after `framebuf[:n]` reslicing), the byte count `n`, and whether `err` was
non-nil. -/
structure ReadMsg where
  buf : List Nat
  n : Nat
  isErr : Bool
deriving DecidableEq, Repr

/-- An event received by the pump's `select`: the close signal or a read
message. -/
inductive PumpEvent where
  | closeSignal
  | read (msg : ReadMsg)
deriving DecidableEq, Repr

/-- `ethernet.Frame.Destination` of the songgao/packets dependency: the Go
slice expression `f[:6:6]`, which panics iff the slice's capacity is below
6 and otherwise yields the first 6 bytes of the backing buffer — its
result does not depend on the frame's length `n`. -/
def frameDestination (buf : List Nat) : Option (List Nat) :=
  if 6 ≤ buf.length then some (buf.take 6) else none

/-- The per-frame classification and dispatch of `tapReadHandler` (after
the read-error branch): decode the destination (`none` = slice-bounds
panic), then unicast with error logging if homenet-tagged, broadcast
fan-out if the broadcast address, and a silent `continue` (drop)
otherwise. -/
def routeFrameActions (tenv : TransportEnv) (net : NetworkView)
    (msg : ReadMsg) : Option (List Action) :=
  match frameDestination msg.buf with
  | none => none
  | some dstMAC =>
    if macSlice.IsHomenet dstMAC then
      some
        (let r := SendToPeerByIntAlias tenv net
          (macSlice.GetPeerIntAlias dstMAC) (msg.buf.take msg.n)
         r.2 ++ logIfError r.1)
    else if macSlice.IsBroadcast dstMAC then
      some (broadcastActions tenv net (msg.buf.take msg.n))
    else some [.drop]

/-- The consumer loop of `vpn.tapReadHandler` over a finite event stream,
for the phase in which `GetNetwork()` stays non-nil (the network field is
only cleared by `Close`): a close signal returns from the loop; on a read
message whose `err` is non-nil the loop logs and sleeps one second, and
then — without skipping — still processes `framebuf[:msg.n]` as a frame;
a destination decode that faults (`none`) crashes the goroutine, otherwise
the loop continues with the next event. -/
def tapReadHandler (tenv : TransportEnv) (net : NetworkView) :
    List PumpEvent → List Action
  | [] => []
  | .closeSignal :: _ => []
  | .read msg :: rest =>
    let errActs : List Action :=
      if msg.isErr then [.logReadError, .sleepBackoff] else []
    match routeFrameActions tenv net msg with
    | none => errActs ++ [.crash]
    | some acts => errActs ++ acts ++ tapReadHandler tenv net rest

/-- Single-threaded execution state for the teardown path: whether
`vpn.locker` is currently held by this goroutine, whether the network slot
holds a handle, and whether `vpn.closeChan` was ever allocated (`New` never
makes the channel, so it stays the nil channel). -/
structure ExecState where
  lockHeld : Bool
  networkSet : Bool
  closeChanMade : Bool
deriving DecidableEq, Repr

/-- `vpn.LockDo` over a non-reentrant `sync.Mutex`, run single-threadedly:
acquiring the mutex while this same goroutine already holds it blocks
forever (`none`, since nothing else can release it); otherwise the body
runs with the lock held and the deferred unlock releases it. -/
def LockDo (s : ExecState) (body : ExecState → Option ExecState) :
    Option ExecState :=
  if s.lockHeld then none
  else (body { s with lockHeld := true }).map
    (fun s' => { s' with lockHeld := false })

/-- `vpn.setNetwork`: wraps its whole body (unhook old handle, store the
new one, hook it) in `LockDo`.  The hooker bookkeeping is summarised by the
stored flag; only the locking behaviour matters here. -/
def setNetworkRun (newNetworkSet : Bool) (s : ExecState) :
    Option ExecState :=
  LockDo s (fun s1 => some { s1 with networkSet := newNetworkSet })

/-- A send on `vpn.closeChan`: the channel is unbuffered and, when it was
never allocated, nil — in both single-threaded cases the send blocks
forever unless the channel exists and a receiver is ready; we model the
never-allocated nil channel, on which a send always blocks. -/
def closeChanSend (s : ExecState) : Option ExecState :=
  if s.closeChanMade then some s else none

/-- `vpn.Close`: under `LockDo`, calls `setNetwork(nil)` (itself a
`LockDo`), closes the device, and sends on `closeChan`. -/
def CloseRun (s : ExecState) : Option ExecState :=
  LockDo s (fun s1 => (setNetworkRun false s1).bind closeChanSend)

/-- The execution state right after `New`: the mutex is free, the network
slot was filled by `setNetwork(homenet)`, and `closeChan` was never
allocated. -/
def stateAfterNew : ExecState :=
  { lockHeld := false, networkSet := true, closeChanMade := false }

/-! Concrete sample data used by witnesses and counterexamples. -/

/-- A link environment in which every link operation succeeds. -/
def envAllOk : LinkEnv :=
  { setLinkMacAddressOk := fun _ => true, setLinkIpOk := fun _ => true,
    setLinkUpOk := true }

/-- A link environment in which `SetLinkIp` fails and the other link
operations succeed. -/
def envIpFails : LinkEnv :=
  { setLinkMacAddressOk := fun _ => true, setLinkIpOk := fun _ => false,
    setLinkUpOk := true }

/-- A transport environment in which every delivery succeeds. -/
def tenvAllOk : TransportEnv := { sendOk := fun _ _ => true }

/-- A control-plane view with an empty directory. -/
def emptyNet : NetworkView := { peerID := "self", peers := [] }

/-- A full-size (`TAPFrameMaxSize` = 1500 byte) zeroed read buffer. -/
def zeroBuf : List Nat := List.replicate 1500 0

/-- The state for subnet 10.0.0.0/24 (`Mask.Size()` = (24, 32)). -/
def subnet24St : VpnState := initialState [10, 0, 0, 0] 24 32

/-- A /24 state whose base address has last octet 10 (the spec's
"subnet base octet 10" scenario). -/
def subnetBase10St : VpnState := initialState [10, 0, 0, 10] 24 32

/-- A full-size read buffer holding a frame destined to homenet alias 7. -/
def aliasFrameBuf : List Nat := GenerateHomenetMAC 7 ++ List.replicate 1494 0

/-- Whether an action is a delivery attempt. -/
def Action.isAttempt : Action → Bool
  | .deliverAttempt _ => true
  | _ => false

/-! ## Theorems -/

/-- The uint32 value `1 << hostBits` never exceeds `2 ^ 31` (for 32 or more
host bits the Go shift truncates to 0). -/
theorem aliasCapacity_le (hostBits : Nat) : aliasCapacity hostBits ≤ 2 ^ 31 := by
  unfold aliasCapacity
  rcases le_or_lt hostBits 31 with h | h
  · calc 2 ^ hostBits % 2 ^ 32 ≤ 2 ^ hostBits := Nat.mod_le _ _
      _ ≤ 2 ^ 31 := Nat.pow_le_pow_right (by norm_num) h
  · have hdvd : (2 : Nat) ^ 32 ∣ 2 ^ hostBits := pow_dvd_pow 2 (by omega)
    have h0 : 2 ^ hostBits % 2 ^ 32 = 0 := Nat.mod_eq_zero_of_dvd hdvd
    omega

/-- The last octet of the in-place-mutated address. -/
theorem getLastD_mutatedIP (st : VpnState) (a : Nat) :
    (mutatedIP st a).getLastD 0 =
      (st.subnetIP.getLastD 0 + a % 256) % 256 := by
  simp [mutatedIP, List.getLastD_concat]

/-- C1 (counterexample): the claim "updateIPAddress fails with
AddressSpaceExhausted iff the base's last octet plus the alias exceeds 255"
is false for subnet 10.0.0.0/24 and alias 256: the sum 0 + 256 exceeds
255, yet the call fails with `ErrWrongMask` (the host-capacity check
`peerIntAlias >= 1 << hostBits` runs first), not with
AddressSpaceExhausted. -/
theorem C1_iff_counterexample :
    ¬(((updateIPAddress envAllOk subnet24St 256).1 =
          some .addressSpaceExhausted) ↔
        255 < subnet24St.subnetIP.getLastD 0 + 256) := by
  decide

/-- C1 (amended): for every alias below the subnet host capacity (larger
aliases fail earlier with `ErrWrongMask`), `updateIPAddress` fails with
AddressSpaceExhausted iff the base address's last octet plus the alias
exceeds 255; when the sum stays within 255, the address it stores and
applies has last octet equal to that sum exactly — no wraparound. -/
theorem C1_address_space_exhausted_iff (env : LinkEnv) (st : VpnState)
    (a : Nat) (hbase : st.subnetIP.getLastD 0 ≤ 255)
    (hcap : a < aliasCapacity (st.maskBits - st.maskOnes)) :
    ((updateIPAddress env st a).1 = some .addressSpaceExhausted ↔
        255 < st.subnetIP.getLastD 0 + a) ∧
      (st.subnetIP.getLastD 0 + a ≤ 255 →
        (updateIPAddress env st a).2.1.subnetIP.getLastD 0 =
          st.subnetIP.getLastD 0 + a) := by
  have hcapLe := aliasCapacity_le (st.maskBits - st.maskOnes)
  have ha31 : a < 2 ^ 31 := lt_of_lt_of_le hcap hcapLe
  have hlt : st.subnetIP.getLastD 0 + a < 2 ^ 32 := by
    have h2 : (2 : Nat) ^ 31 < 2 ^ 32 := by norm_num
    omega
  have hmod : (st.subnetIP.getLastD 0 + a) % 2 ^ 32 =
      st.subnetIP.getLastD 0 + a := Nat.mod_eq_of_lt hlt
  unfold updateIPAddress
  rw [if_neg (by omega)]
  by_cases hgt : 255 < st.subnetIP.getLastD 0 + a
  · rw [if_pos (by rw [hmod]; exact hgt)]
    exact ⟨⟨fun _ => hgt, fun _ => rfl⟩, fun hle => absurd hgt (by omega)⟩
  · rw [if_neg (by rw [hmod]; exact hgt)]
    have hsum : st.subnetIP.getLastD 0 + a ≤ 255 := by omega
    have hmut : (st.subnetIP.getLastD 0 + a % 256) % 256 =
        st.subnetIP.getLastD 0 + a := by omega
    constructor
    · constructor
      · intro h
        split at h <;> simp_all
      · intro h
        exact absurd h (by omega)
    · intro _
      split
      · show (mutatedIP st a).getLastD 0 = st.subnetIP.getLastD 0 + a
        rw [getLastD_mutatedIP]
        omega
      · show (mutatedIP st a).getLastD 0 = st.subnetIP.getLastD 0 + a
        rw [getLastD_mutatedIP]
        omega

/-- Witness for the amended C1 at the spec's scenario: base octet 10,
alias 240, so the applied last octet is exactly 250. -/
theorem C1_address_space_exhausted_iff_witness :
    (updateIPAddress envAllOk subnetBase10St 240).2.1.subnetIP.getLastD 0 =
      250 := by
  have h := (C1_address_space_exhausted_iff envAllOk subnetBase10St 240
    (by decide) (by decide)).2 (by decide)
  exact h.trans (by decide)

/-- C10: whenever both range checks pass, `updateIPAddress` leaves the
stored subnet base address mutated in place — its last octet has the alias
added in — for EVERY outcome of the `SetLinkIp` step (the quantification
over `env` covers a failing `SetLinkIp`, and the third conjunct makes that
case explicit), and every subsequent IP computation starts from the
mutated state returned here, not from the originally configured base. -/
theorem C10_subnet_base_mutated_in_place (env : LinkEnv) (st : VpnState)
    (a : Nat) (hcap : a < aliasCapacity (st.maskBits - st.maskOnes))
    (hle : (st.subnetIP.getLastD 0 + a) % 2 ^ 32 ≤ 255) :
    (updateIPAddress env st a).2.1 = { st with subnetIP := mutatedIP st a } ∧
      (updateIPAddress env st a).2.1.subnetIP.getLastD 0 =
        (st.subnetIP.getLastD 0 + a % 256) % 256 ∧
      (env.setLinkIpOk (mutatedIP st a) = false →
        (updateIPAddress env st a).1 = some .linkConfig) := by
  unfold updateIPAddress
  rw [if_neg (by omega), if_neg (by omega)]
  refine ⟨?_, ?_, ?_⟩
  · split <;> rfl
  · split
    · exact getLastD_mutatedIP st a
    · exact getLastD_mutatedIP st a
  · intro hfail
    rw [if_neg (by simp [hfail])]

/-- Witness for C10: on 10.0.0.10/24 with alias 5, even though `SetLinkIp`
fails, the call returns the link-configuration error AND the stored subnet
base has become 10.0.0.15. -/
theorem C10_subnet_base_mutated_in_place_witness :
    (updateIPAddress envIpFails subnetBase10St 5).2.1 =
        initialState [10, 0, 0, 15] 24 32 ∧
      (updateIPAddress envIpFails subnetBase10St 5).1 =
        some .linkConfig := by
  have h := C10_subnet_base_mutated_in_place envIpFails subnetBase10St 5
    (by decide) (by decide)
  exact ⟨h.1.trans (by decide), h.2.2 (by decide)⟩

/-- `updateIPAddress` never touches the last-applied alias. -/
theorem updateIPAddress_oldPeerIntAlias (env : LinkEnv) (st : VpnState)
    (a : Nat) :
    (updateIPAddress env st a).2.1.oldPeerIntAlias = st.oldPeerIntAlias := by
  unfold updateIPAddress
  split
  · rfl
  · split
    · rfl
    · split <;> rfl

/-- C5: the reconciler stores the new alias into `oldPeerIntAlias` exactly
when all three steps succeed and leaves it unchanged on any failure
(first conjunct); re-delivering the already-applied alias performs no
mutation at all — unchanged state, no link operations (second conjunct);
and while the reported alias still differs from the last-applied one,
`updatePeers` re-runs the full three-step transition (third conjunct) —
so after a partial failure, the next membership event retries the whole
transition. -/
theorem C5_reconciler_only_full_success_updates (env : LinkEnv)
    (st : VpnState) (a : Nat) :
    (updatePeerIntAlias env st a).2.1.oldPeerIntAlias =
        (match (updatePeerIntAlias env st a).1 with
         | none => a
         | some _ => st.oldPeerIntAlias) ∧
      updatePeers env st st.oldPeerIntAlias = (none, st, []) ∧
      (st.oldPeerIntAlias ≠ a →
        updatePeers env st a = updatePeerIntAlias env st a) := by
  refine ⟨?_, by simp [updatePeers], fun hne => by simp [updatePeers, hne]⟩
  by_cases hm : env.setLinkMacAddressOk (GenerateHomenetMAC a)
  · rcases hip : updateIPAddress env st a with ⟨e, st', tr⟩
    have hold : st'.oldPeerIntAlias = st.oldPeerIntAlias := by
      have h := updateIPAddress_oldPeerIntAlias env st a
      rw [hip] at h
      exact h
    cases e with
    | some e' => simp [updatePeerIntAlias, updateMAC, hm, hip, hold]
    | none =>
      by_cases hu : env.setLinkUpOk
      · simp [updatePeerIntAlias, updateMAC, hm, hip, hu]
      · simp [updatePeerIntAlias, updateMAC, hm, hip, hu, hold]
  · simp [updatePeerIntAlias, updateMAC, hm]

/-- Witness for C5: with a differing alias, `updatePeers` runs the full
transition. -/
theorem C5_reconciler_only_full_success_updates_witness :
    updatePeers envAllOk subnet24St 5 =
      updatePeerIntAlias envAllOk subnet24St 5 :=
  (C5_reconciler_only_full_success_updates envAllOk subnet24St 5).2.2
    (by decide)

/-- C6 (counterexample): there is no distinct "unset" initial value — the
last-applied alias starts at the uint32 zero value 0, so the first
membership event reporting self-alias 0 triggers NO reconciliation: the
state is returned unchanged with an empty link-operation trace. -/
theorem C6_alias_zero_counterexample :
    updatePeers envAllOk (initialState [10, 0, 0, 0] 24 32) 0 =
      (none, initialState [10, 0, 0, 0] 24 32, []) := by
  decide

/-- C6 (amended): after construction the last-applied alias is 0 (the
uint32 zero value), so the first membership event triggers the full
reconciliation transition iff the reported self-alias is nonzero; a
reported alias of 0 is indistinguishable from the initial state and
triggers nothing. -/
theorem C6_first_event_triggers_iff_nonzero (env : LinkEnv) (ip : List Nat)
    (mo mb : Nat) (a : Nat) (ha : a ≠ 0) :
    updatePeers env (initialState ip mo mb) a =
        updatePeerIntAlias env (initialState ip mo mb) a ∧
      updatePeers env (initialState ip mo mb) 0 =
        (none, initialState ip mo mb, []) := by
  constructor
  · have h0 : (initialState ip mo mb).oldPeerIntAlias ≠ a := by
      simpa [initialState] using Ne.symm ha
    simp [updatePeers, h0]
  · simp [updatePeers, initialState]

/-- Witness for the amended C6: the first event with nonzero alias 5 does
run the transition. -/
theorem C6_first_event_triggers_iff_nonzero_witness :
    updatePeers envAllOk (initialState [10, 0, 0, 0] 24 32) 5 =
      updatePeerIntAlias envAllOk (initialState [10, 0, 0, 0] 24 32) 5 :=
  (C6_first_event_triggers_iff_nonzero envAllOk [10, 0, 0, 0] 24 32 5
    (by decide)).1

/-- One unfolding step of the peer iteration: matching own id skips. -/
theorem foreachPeerGo_cons_self (myID : String)
    (f : PeerT → List Action × Bool) (p : PeerT) (rest : List PeerT)
    (hp : (p.id == myID) = true) :
    foreachPeerGo myID f (p :: rest) = foreachPeerGo myID f rest := by
  simp [foreachPeerGo, hp]

/-- One unfolding step of the peer iteration: a non-self peer whose
callback continues contributes its output and the iteration goes on. -/
theorem foreachPeerGo_cons_other (myID : String)
    (f : PeerT → List Action × Bool) (p : PeerT) (rest : List PeerT)
    (hp : (p.id == myID) = false) (hcont : (f p).2 = true) :
    foreachPeerGo myID f (p :: rest) =
      (f p).1 ++ foreachPeerGo myID f rest := by
  simp only [foreachPeerGo, hp]
  rw [if_neg (by simp), if_pos hcont]

/-- The delivery attempts made by the broadcast iteration are exactly one
per directory peer whose id differs from the own peer id, in directory
order, whatever the delivery outcomes are. -/
theorem broadcast_attempts_go (tenv : TransportEnv) (frame : List Nat)
    (myID : String) (ps : List PeerT) :
    (foreachPeerGo myID (broadcastFn tenv frame) ps).filter
        Action.isAttempt =
      (ps.filter (fun p => !(p.id == myID))).map
        (fun p => Action.deliverAttempt p.id) := by
  induction ps with
  | nil => rfl
  | cons p rest ih =>
    by_cases hp : p.id == myID
    · rw [foreachPeerGo_cons_self myID _ p rest hp]
      simp [hp, ih]
    · have hp' : (p.id == myID) = false := by simpa using hp
      rw [foreachPeerGo_cons_other myID _ p rest hp' rfl,
        List.filter_append, ih]
      cases hs : tenv.sendOk p frame <;>
        simp [broadcastFn, SendToPeer, logIfError, hs, Action.isAttempt, hp']

/-- The attempts of the whole broadcast fan-out, at the `NetworkView`
level. -/
theorem broadcast_attempts (tenv : TransportEnv) (net : NetworkView)
    (frame : List Nat) :
    (broadcastActions tenv net frame).filter Action.isAttempt =
      (net.peers.filter (fun p => !(p.id == net.peerID))).map
        (fun p => Action.deliverAttempt p.id) :=
  broadcast_attempts_go tenv frame net.peerID net.peers

/-- C3: for every broadcast-destined frame, with N directory peers other
than self, the fan-out makes exactly N delivery attempts (self is
skipped), and the attempt sequence is the same for every transport
outcome oracle — so a failure of the k-th attempt never prevents attempts
k+1..N. -/
theorem C3_broadcast_fanout (tenv : TransportEnv) (net : NetworkView)
    (frame : List Nat) :
    (broadcastActions tenv net frame).filter Action.isAttempt =
        (net.peers.filter (fun p => !(p.id == net.peerID))).map
          (fun p => Action.deliverAttempt p.id) ∧
      ((broadcastActions tenv net frame).filter Action.isAttempt).length =
        (net.peers.filter (fun p => !(p.id == net.peerID))).length ∧
      ∀ tenv' : TransportEnv,
        (broadcastActions tenv' net frame).filter Action.isAttempt =
          (broadcastActions tenv net frame).filter Action.isAttempt := by
  refine ⟨broadcast_attempts tenv net frame, ?_, ?_⟩
  · rw [broadcast_attempts tenv net frame]
    simp
  · intro tenv'
    rw [broadcast_attempts tenv net frame, broadcast_attempts tenv' net frame]

/-- A retained buffer of at least 6 bytes always yields a destination. -/
theorem frameDestination_of_capacity (buf : List Nat)
    (h : 6 ≤ buf.length) : frameDestination buf = some (buf.take 6) := by
  simp [frameDestination, h]

/-- Frame routing never faults when the retained buffer has at least 6
bytes (the only `none` source is `frameDestination`). -/
theorem routeFrameActions_isSome (tenv : TransportEnv) (net : NetworkView)
    (msg : ReadMsg) (h : 6 ≤ msg.buf.length) :
    routeFrameActions tenv net msg ≠ none := by
  simp only [routeFrameActions, frameDestination_of_capacity msg.buf h]
  split
  · simp
  · split <;> simp

/-- One step of the pump on a read message, when the retained buffer has
at least 6 bytes: the error actions (if any), then the frame's routing
actions, then the rest of the loop. -/
theorem tapReadHandler_read_cons (tenv : TransportEnv) (net : NetworkView)
    (msg : ReadMsg) (rest : List PumpEvent) (h : 6 ≤ msg.buf.length) :
    tapReadHandler tenv net (.read msg :: rest) =
      (if msg.isErr then [Action.logReadError, Action.sleepBackoff]
        else []) ++
        ((routeFrameActions tenv net msg).getD [] ++
          tapReadHandler tenv net rest) := by
  rcases hr : routeFrameActions tenv net msg with _ | acts
  · exact absurd hr (routeFrameActions_isSome tenv net msg h)
  · simp [tapReadHandler, hr]

/-- C4: for a frame whose homenet-tagged destination decodes to an alias
absent from the directory, `SendToPeerByIntAlias` makes no delivery
attempt and fails with PeerNotFound; the pump logs that error, performs
nothing else for the frame, and continues with the subsequent events. -/
theorem C4_absent_alias_no_attempt (tenv : TransportEnv)
    (net : NetworkView) (msg : ReadMsg) (rest : List PumpEvent)
    (dst : List Nat) (hdst : frameDestination msg.buf = some dst)
    (hhm : macSlice.IsHomenet dst = true)
    (habs : GetPeerByIntAlias net (macSlice.GetPeerIntAlias dst) = none)
    (herr : msg.isErr = false) :
    SendToPeerByIntAlias tenv net (macSlice.GetPeerIntAlias dst)
        (msg.buf.take msg.n) =
      (some (.peerNotFound (macSlice.GetPeerIntAlias dst)), []) ∧
    tapReadHandler tenv net (.read msg :: rest) =
      Action.logError (.peerNotFound (macSlice.GetPeerIntAlias dst)) ::
        tapReadHandler tenv net rest := by
  have hsend : SendToPeerByIntAlias tenv net (macSlice.GetPeerIntAlias dst)
      (msg.buf.take msg.n) =
      (some (.peerNotFound (macSlice.GetPeerIntAlias dst)), []) := by
    simp [SendToPeerByIntAlias, habs]
  refine ⟨hsend, ?_⟩
  have hroute : routeFrameActions tenv net msg =
      some [Action.logError
        (.peerNotFound (macSlice.GetPeerIntAlias dst))] := by
    simp [routeFrameActions, hdst, hhm, hsend, logIfError]
  simp [tapReadHandler, hroute, herr]

set_option maxRecDepth 40000 in
/-- Witness for C4: a frame destined to the absent alias 7 is dropped with
a logged PeerNotFound and the pump finishes the remaining (empty) event
stream. -/
theorem C4_absent_alias_no_attempt_witness :
    tapReadHandler tenvAllOk emptyNet [.read ⟨aliasFrameBuf, 14, false⟩] =
      [.logError (.peerNotFound 7)] := by
  have h := (C4_absent_alias_no_attempt tenvAllOk emptyNet
    ⟨aliasFrameBuf, 14, false⟩ [] (GenerateHomenetMAC 7) (by decide)
    (by decide) (by decide) rfl).2
  exact h.trans (by decide)

/-- C7: on a read message carrying a non-nil error the pump logs the
error, backs off the fixed one-second delay, and then continues the loop
on the remaining events — an error never terminates the loop; the loop
returns only on the explicit close signal. -/
theorem C7_read_error_never_terminates (tenv : TransportEnv)
    (net : NetworkView) (msg : ReadMsg) (rest rest2 : List PumpEvent)
    (herr : msg.isErr = true) (hbuf : 6 ≤ msg.buf.length) :
    tapReadHandler tenv net (.read msg :: rest) =
        Action.logReadError :: Action.sleepBackoff ::
          ((routeFrameActions tenv net msg).getD [] ++
            tapReadHandler tenv net rest) ∧
      tapReadHandler tenv net (.closeSignal :: rest2) = [] := by
  constructor
  · rw [tapReadHandler_read_cons tenv net msg rest hbuf, herr]
    simp
  · rfl

set_option maxRecDepth 40000 in
/-- Witness for C7: a failed zero-byte read is logged, backed off, and the
loop goes on (here: classifies the stale zero destination and drops). -/
theorem C7_read_error_never_terminates_witness :
    tapReadHandler tenvAllOk emptyNet [.read ⟨zeroBuf, 0, true⟩] =
      [.logReadError, .sleepBackoff, .drop] := by
  have h := (C7_read_error_never_terminates tenvAllOk emptyNet
    ⟨zeroBuf, 0, true⟩ [] [] rfl (by decide)).1
  exact h.trans (by decide)

set_option maxRecDepth 40000 in
/-- C9 (counterexample): on an errored read with n = 0 the destination
access does NOT index out of bounds: the retained buffer keeps its full
`TAPFrameMaxSize` capacity, `Destination` is the capacity-bounded slice
expression f[:6:6], and the pump classifies the stale first 6 bytes and
proceeds — no fault occurs. -/
theorem C9_no_out_of_bounds_counterexample :
    frameDestination zeroBuf = some (List.replicate 6 0) ∧
      tapReadHandler tenvAllOk emptyNet [.read ⟨zeroBuf, 0, true⟩] =
        [.logReadError, .sleepBackoff, .drop] := by
  exact ⟨by decide, by decide⟩

/-- C9 (amended): the error branch indeed does not skip frame dispatch —
after logging and backing off, the pump still processes framebuf[:n] as a
frame — but for n < 6 the destination access is a within-capacity slice of
the retained full-size buffer yielding its (stale) first 6 bytes, not an
out-of-bounds access. -/
theorem C9_error_branch_still_dispatches (tenv : TransportEnv)
    (net : NetworkView) (msg : ReadMsg) (rest : List PumpEvent)
    (herr : msg.isErr = true) (_hn : msg.n < 6)
    (hbuf : 6 ≤ msg.buf.length) :
    frameDestination msg.buf = some (msg.buf.take 6) ∧
      routeFrameActions tenv net msg ≠ none ∧
      tapReadHandler tenv net (.read msg :: rest) =
        Action.logReadError :: Action.sleepBackoff ::
          ((routeFrameActions tenv net msg).getD [] ++
            tapReadHandler tenv net rest) := by
  refine ⟨frameDestination_of_capacity msg.buf hbuf,
    routeFrameActions_isSome tenv net msg hbuf, ?_⟩
  rw [tapReadHandler_read_cons tenv net msg rest hbuf, herr]
  simp

set_option maxRecDepth 40000 in
/-- Witness for the amended C9: a zero-byte errored read over a buffer
still holding a previous homenet frame dispatches on the stale
destination (alias 7, absent, so PeerNotFound is logged). -/
theorem C9_error_branch_still_dispatches_witness :
    tapReadHandler tenvAllOk emptyNet [.read ⟨aliasFrameBuf, 0, true⟩] =
      [.logReadError, .sleepBackoff, .logError (.peerNotFound 7)] := by
  have h := (C9_error_branch_still_dispatches tenvAllOk emptyNet
    ⟨aliasFrameBuf, 0, true⟩ [] rfl (by decide) (by decide)).2.2
  exact h.trans (by decide)

/-- Decoding inverts the synthetic-MAC encoding over the 32-bit alias
range. -/
theorem getPeerIntAlias_generateHomenetMAC (a : Nat) (ha : a < 2 ^ 32) :
    macSlice.GetPeerIntAlias (GenerateHomenetMAC a) = a := by
  simp [macSlice.GetPeerIntAlias, GenerateHomenetMAC, homenetTag]
  omega

/-- C2: for every valid (32-bit) alias `a`, decoding the synthetic link
address produced for `a` yields `a` back exactly
(`addressToAlias (aliasToAddress a) = a`), and hence the encoding is
injective over the whole valid range. -/
theorem C2_alias_address_roundtrip (a : Nat) (ha : a < 2 ^ 32) :
    macSlice.GetPeerIntAlias (GenerateHomenetMAC a) = a ∧
      ∀ b : Nat, b < 2 ^ 32 → GenerateHomenetMAC a = GenerateHomenetMAC b →
        a = b := by
  refine ⟨getPeerIntAlias_generateHomenetMAC a ha, ?_⟩
  intro b hb heq
  have h1 := getPeerIntAlias_generateHomenetMAC a ha
  have h2 := getPeerIntAlias_generateHomenetMAC b hb
  rw [heq, h2] at h1
  exact h1.symm

/-- Witness for C2 at the spec's scenario alias 5. -/
theorem C2_alias_address_roundtrip_witness :
    5 < 2 ^ 32 ∧ macSlice.GetPeerIntAlias (GenerateHomenetMAC 5) = 5 :=
  ⟨by decide, (C2_alias_address_roundtrip 5 (by decide)).1⟩

/-- C8: a single invocation of `Close`, started from the state `New`
leaves behind, never completes: under `vpn.locker` it calls
`setNetwork(nil)`, which
re-acquires the same non-reentrant mutex and blocks forever (and the later
send on the never-allocated nil `closeChan` would block as well), so the
teardown neither finishes nor signals the pump. -/
theorem C8_close_never_completes : CloseRun stateAfterNew = none := by
  decide

end HomenetPeer
